import Mathlib

/-!
Verification of the "AsyncShared" access-controlled shared-ownership pointer
family (`src/mseasyncshared.h`) and the single-threaded reference-counted
pointer (`src/mserefcounted.h`) of the SaferCPlusPlus repository.

The embedding is shallow: the lock held by each pointer-proxy class is read
off the class's lock member declaration, the `std::shared_timed_mutex` of
`TAsyncSharedObj` is modelled as a reader/writer-lock state machine, and the
set of live proxies holding the mutex of one cell is a reachable
configuration of that machine.
-/

namespace Mse

/-- State of the `std::shared_timed_mutex` member `TAsyncSharedObj::m_mutex1`
(mseasyncshared.h line 61): `writers` is the number of holders of the
exclusive side, `readers` the number of holders of the shared side. -/
structure MutexState where
  writers : Nat
  readers : Nat
deriving DecidableEq, Repr

/-- A freshly constructed mutex is unlocked. -/
def MutexState.unlocked : MutexState := ⟨0, 0⟩

/-- One acquisition attempt of `std::unique_lock<std::shared_timed_mutex>`
(exclusive mode): grantable exactly when no writer and no reader holds the
mutex; `none` means the constructing thread blocks and must retry. -/
def tryLockUnique (s : MutexState) : Option MutexState :=
  if s.writers = 0 ∧ s.readers = 0 then some ⟨1, 0⟩ else none

/-- One acquisition attempt of `std::shared_lock<std::shared_timed_mutex>`
(shared mode): grantable exactly when no writer holds the mutex; `none`
means the constructing thread blocks and must retry. -/
def tryLockShared (s : MutexState) : Option MutexState :=
  if s.writers = 0 then some ⟨0, s.readers + 1⟩ else none

/-- Release of the exclusive side (destructor of an owning `unique_lock`). -/
def unlockUnique (s : MutexState) : MutexState := ⟨s.writers - 1, s.readers⟩

/-- Release of the shared side (destructor of an owning `shared_lock`). -/
def unlockShared (s : MutexState) : MutexState := ⟨s.writers, s.readers - 1⟩

/-- The six pointer-proxy classes of mseasyncshared.h. -/
inductive ProxyKind
  | TAsyncSharedPointer
  | TAsyncSharedConstPointer
  | TAsyncSharedImmutableConstPointer
  | TAsyncSharedSimpleObjectYouAreSureHasNoMutableMembersPointer
  | TAsyncSharedSimpleObjectYouAreSureHasNoMutableMembersConstPointer
  | TAsyncSharedSimpleObjectYouAreSureHasNoMutableMembersImmutableConstPointer
deriving DecidableEq, Repr

/-- The kind of lock member a proxy class declares. -/
inductive LockMember
  | uniqueLock
  | sharedLock
  | noLock
deriving DecidableEq, Repr

/-- The lock member of each proxy class, transcribed from the member
declarations in mseasyncshared.h:
`TAsyncSharedPointer::m_unique_lock` (line 111),
`TAsyncSharedConstPointer::m_unique_lock` (line 149),
`TAsyncSharedImmutableConstPointer::m_unique_lock` (line 222),
`...NoMutableMembersPointer::m_unique_lock` (line 294),
`...NoMutableMembersConstPointer::m_shared_lock` (line 332),
`...NoMutableMembersImmutableConstPointer` has no lock member
(the `m_shared_lock` declaration at line 405 is commented out). -/
def lockMember : ProxyKind → LockMember
  | .TAsyncSharedPointer => .uniqueLock
  | .TAsyncSharedConstPointer => .uniqueLock
  | .TAsyncSharedImmutableConstPointer => .uniqueLock
  | .TAsyncSharedSimpleObjectYouAreSureHasNoMutableMembersPointer => .uniqueLock
  | .TAsyncSharedSimpleObjectYouAreSureHasNoMutableMembersConstPointer => .sharedLock
  | .TAsyncSharedSimpleObjectYouAreSureHasNoMutableMembersImmutableConstPointer => .noLock

/-- The mutex acquisition a proxy's constructor performs: each constructor
initializes its lock member from `shptr->m_mutex1`, which blocks in the
member's mode; the lock-free proxy's constructor touches no mutex. -/
def acquire (k : ProxyKind) (s : MutexState) : Option MutexState :=
  match lockMember k with
  | .uniqueLock => tryLockUnique s
  | .sharedLock => tryLockShared s
  | .noLock => some s

/-- The mutex release a proxy's destructor performs (the lock member's
destructor unlocks the mode it owns; the lock-free proxy releases nothing). -/
def release (k : ProxyKind) (s : MutexState) : MutexState :=
  match lockMember k with
  | .uniqueLock => unlockUnique s
  | .sharedLock => unlockShared s
  | .noLock => s

/-- Whether a proxy class's lock member is the exclusive (`unique_lock`) one. -/
def holdsUnique (k : ProxyKind) : Bool :=
  match lockMember k with
  | .uniqueLock => true
  | _ => false

/-- Whether a proxy class's lock member is the shared (`shared_lock`) one. -/
def holdsShared (k : ProxyKind) : Bool :=
  match lockMember k with
  | .sharedLock => true
  | _ => false

/-- A configuration of one shared cell: the state of its mutex together with
the multiset (as a list) of live proxies currently constructed on it. -/
structure Config where
  lock : MutexState
  live : List ProxyKind
deriving DecidableEq, Repr

/-- Number of live proxies holding the exclusive side. -/
def uniqueCount (l : List ProxyKind) : Nat := l.countP holdsUnique

/-- Number of live proxies holding the shared side. -/
def sharedCount (l : List ProxyKind) : Nat := l.countP holdsShared

/-- One step of the lifetime of a cell's proxies: constructing a proxy
(which performs its blocking acquisition; the step exists only when the
acquisition is grantable) or destroying a live proxy (which releases). -/
inductive Step : Config → Config → Prop
  | mint (k : ProxyKind) (c : Config) (s' : MutexState) :
      acquire k c.lock = some s' → Step c ⟨s', k :: c.live⟩
  | destroy (k : ProxyKind) (c : Config) (l1 l2 : List ProxyKind) :
      c.live = l1 ++ k :: l2 → Step c ⟨release k c.lock, l1 ++ l2⟩

/-- Configurations reachable from a freshly created cell (factory functions
construct the `TAsyncSharedObj` with its mutex unlocked and no proxies). -/
inductive Reachable : Config → Prop
  | init : Reachable ⟨MutexState.unlocked, []⟩
  | step {c c' : Config} : Reachable c → Step c c' → Reachable c'

/-- The reader/writer invariant tying the mutex state to the live proxies:
the writer count is the number of live exclusive holders, the reader count
the number of live shared holders, and the mutex is never held in both
modes nor by two writers at once. -/
def Inv (c : Config) : Prop :=
  c.lock.writers = uniqueCount c.live ∧
  c.lock.readers = sharedCount c.live ∧
  (c.lock.writers = 0 ∨ (c.lock.writers = 1 ∧ c.lock.readers = 0))

theorem inv_init : Inv ⟨MutexState.unlocked, []⟩ := by
  refine ⟨rfl, rfl, Or.inl rfl⟩

theorem uniqueCount_cons_unique {k : ProxyKind} (hk : holdsUnique k = true)
    (l : List ProxyKind) : uniqueCount (k :: l) = uniqueCount l + 1 := by
  simp [uniqueCount, List.countP_cons, hk]

theorem uniqueCount_cons_other {k : ProxyKind} (hk : holdsUnique k = false)
    (l : List ProxyKind) : uniqueCount (k :: l) = uniqueCount l := by
  simp [uniqueCount, List.countP_cons, hk]

theorem sharedCount_cons_shared {k : ProxyKind} (hk : holdsShared k = true)
    (l : List ProxyKind) : sharedCount (k :: l) = sharedCount l + 1 := by
  simp [sharedCount, List.countP_cons, hk]

theorem sharedCount_cons_other {k : ProxyKind} (hk : holdsShared k = false)
    (l : List ProxyKind) : sharedCount (k :: l) = sharedCount l := by
  simp [sharedCount, List.countP_cons, hk]

theorem uniqueCount_append (l1 l2 : List ProxyKind) :
    uniqueCount (l1 ++ l2) = uniqueCount l1 + uniqueCount l2 := by
  simp [uniqueCount, List.countP_append]

theorem sharedCount_append (l1 l2 : List ProxyKind) :
    sharedCount (l1 ++ l2) = sharedCount l1 + sharedCount l2 := by
  simp [sharedCount, List.countP_append]

theorem inv_step {c c' : Config} (hinv : Inv c) (hs : Step c c') : Inv c' := by
  obtain ⟨hw, hr, hd⟩ := hinv
  cases hs with
  | mint k c s' hacq =>
    cases hk : lockMember k with
    | uniqueLock =>
      have hku : holdsUnique k = true := by simp [holdsUnique, hk]
      have hks : holdsShared k = false := by simp [holdsShared, hk]
      have hcu := uniqueCount_cons_unique hku c.live
      have hcs := sharedCount_cons_other hks c.live
      simp only [acquire, hk, tryLockUnique] at hacq
      split at hacq
      · rename_i hz
        obtain ⟨hz1, hz2⟩ := hz
        cases hacq
        refine ⟨?_, ?_, Or.inr ⟨rfl, rfl⟩⟩
        · show (1 : Nat) = uniqueCount (k :: c.live)
          omega
        · show (0 : Nat) = sharedCount (k :: c.live)
          omega
      · exact absurd hacq (by simp)
    | sharedLock =>
      have hku : holdsUnique k = false := by simp [holdsUnique, hk]
      have hks : holdsShared k = true := by simp [holdsShared, hk]
      have hcu := uniqueCount_cons_other hku c.live
      have hcs := sharedCount_cons_shared hks c.live
      simp only [acquire, hk, tryLockShared] at hacq
      split at hacq
      · rename_i hz
        cases hacq
        refine ⟨?_, ?_, Or.inl rfl⟩
        · show (0 : Nat) = uniqueCount (k :: c.live)
          omega
        · show c.lock.readers + 1 = sharedCount (k :: c.live)
          omega
      · exact absurd hacq (by simp)
    | noLock =>
      have hku : holdsUnique k = false := by simp [holdsUnique, hk]
      have hks : holdsShared k = false := by simp [holdsShared, hk]
      have hcu := uniqueCount_cons_other hku c.live
      have hcs := sharedCount_cons_other hks c.live
      simp only [acquire, hk] at hacq
      cases hacq
      refine ⟨?_, ?_, hd⟩
      · show c.lock.writers = uniqueCount (k :: c.live)
        omega
      · show c.lock.readers = sharedCount (k :: c.live)
        omega
  | destroy k c l1 l2 hsplit =>
    rw [hsplit] at hw hr
    rw [uniqueCount_append] at hw
    rw [sharedCount_append] at hr
    have hnu := uniqueCount_append l1 l2
    have hns := sharedCount_append l1 l2
    cases hk : lockMember k with
    | uniqueLock =>
      have hku : holdsUnique k = true := by simp [holdsUnique, hk]
      have hks : holdsShared k = false := by simp [holdsShared, hk]
      rw [uniqueCount_cons_unique hku] at hw
      rw [sharedCount_cons_other hks] at hr
      have hrel : release k c.lock = ⟨c.lock.writers - 1, c.lock.readers⟩ := by
        simp [release, hk, unlockUnique]
      rw [hrel]
      have hw1 : c.lock.writers = 1 := by
        rcases hd with h0 | ⟨h1, _⟩
        · omega
        · exact h1
      have hr0 : c.lock.readers = 0 := by
        rcases hd with h0 | ⟨_, h2⟩
        · omega
        · exact h2
      refine ⟨?_, ?_, Or.inl ?_⟩
      · show c.lock.writers - 1 = uniqueCount (l1 ++ l2)
        omega
      · show c.lock.readers = sharedCount (l1 ++ l2)
        omega
      · show c.lock.writers - 1 = 0
        omega
    | sharedLock =>
      have hku : holdsUnique k = false := by simp [holdsUnique, hk]
      have hks : holdsShared k = true := by simp [holdsShared, hk]
      rw [uniqueCount_cons_other hku] at hw
      rw [sharedCount_cons_shared hks] at hr
      have hrel : release k c.lock = ⟨c.lock.writers, c.lock.readers - 1⟩ := by
        simp [release, hk, unlockShared]
      rw [hrel]
      have hw0 : c.lock.writers = 0 := by
        rcases hd with h0 | ⟨_, h2⟩
        · exact h0
        · omega
      refine ⟨?_, ?_, Or.inl ?_⟩
      · show c.lock.writers = uniqueCount (l1 ++ l2)
        omega
      · show c.lock.readers - 1 = sharedCount (l1 ++ l2)
        omega
      · show c.lock.writers = 0
        omega
    | noLock =>
      have hku : holdsUnique k = false := by simp [holdsUnique, hk]
      have hks : holdsShared k = false := by simp [holdsShared, hk]
      rw [uniqueCount_cons_other hku] at hw
      rw [sharedCount_cons_other hks] at hr
      have hrel : release k c.lock = c.lock := by
        simp [release, hk]
      rw [hrel]
      refine ⟨?_, ?_, ?_⟩
      · show c.lock.writers = uniqueCount (l1 ++ l2)
        omega
      · show c.lock.readers = sharedCount (l1 ++ l2)
        omega
      · exact hd

theorem reachable_inv {c : Config} (h : Reachable c) : Inv c := by
  induction h with
  | init => exact inv_init
  | step _ hs ih => exact inv_step ih hs

/-- Monotonicity of `countP` under pointwise implication of predicates. -/
theorem countP_implies_le (p q : ProxyKind → Bool) (l : List ProxyKind)
    (h : ∀ k, p k = true → q k = true) : l.countP p ≤ l.countP q := by
  induction l with
  | nil => simp
  | cons a l ih =>
    simp only [List.countP_cons]
    cases hpa : p a with
    | false =>
      cases hqa : q a <;> simp <;> omega
    | true =>
      have hqa : q a = true := h a hpa
      simp [hpa, hqa]
      omega

/-- Membership with a true predicate gives a positive `countP`. -/
theorem countP_pos_of_mem {p : ProxyKind → Bool} {l : List ProxyKind}
    {k : ProxyKind} (hm : k ∈ l) (hp : p k = true) : 1 ≤ l.countP p := by
  induction l with
  | nil => cases hm
  | cons a l ih =>
    simp only [List.countP_cons]
    rcases List.mem_cons.mp hm with h | h
    · subst h
      simp [hp]
    · have := ih h
      omega

/-- A `countP` is zero when the predicate is false on every element. -/
theorem countP_zero_of_all {p : ProxyKind → Bool} {l : List ProxyKind}
    (h : ∀ k ∈ l, p k = false) : l.countP p = 0 := by
  induction l with
  | nil => rfl
  | cons a l ih =>
    simp only [List.countP_cons]
    have ha : p a = false := h a (List.mem_cons_self a l)
    have hl : l.countP p = 0 := ih fun k hk => h k (List.mem_cons_of_mem a hk)
    simp [ha, hl]

/-- Whether a proxy is the mutable exclusive pointer `TAsyncSharedPointer`. -/
def isTAsyncSharedPointer (k : ProxyKind) : Bool :=
  decide (k = ProxyKind.TAsyncSharedPointer)

/-- Whether a proxy belongs to the general (non-pure) path: the three classes
of the non-`SimpleObjectYouAreSureHasNoMutableMembers` family. -/
def isGeneralPathProxy (k : ProxyKind) : Bool :=
  match k with
  | .TAsyncSharedPointer => true
  | .TAsyncSharedConstPointer => true
  | .TAsyncSharedImmutableConstPointer => true
  | _ => false

/-- C1: at most one `TAsyncSharedPointer` to a given cell is alive at any
instant; while one is alive, constructing a second blocks (its exclusive
acquisition is not grantable), and once the sole holder is destroyed the
acquisition is grantable again. -/
theorem c1_exclusive_pointer_unique {c : Config} (h : Reachable c) :
    c.live.countP isTAsyncSharedPointer ≤ 1 ∧
    (ProxyKind.TAsyncSharedPointer ∈ c.live →
      acquire ProxyKind.TAsyncSharedPointer c.lock = none) ∧
    (c.live = [ProxyKind.TAsyncSharedPointer] →
      acquire ProxyKind.TAsyncSharedPointer
        (release ProxyKind.TAsyncSharedPointer c.lock) = some ⟨1, 0⟩) := by
  obtain ⟨hw, hr, hd⟩ := reachable_inv h
  refine ⟨?_, ?_, ?_⟩
  · have hle : c.live.countP isTAsyncSharedPointer ≤ c.live.countP holdsUnique := by
      refine countP_implies_le _ _ _ ?_
      intro k hk
      have : k = ProxyKind.TAsyncSharedPointer := of_decide_eq_true hk
      subst this
      rfl
    have : c.live.countP holdsUnique ≤ 1 := by
      rcases hd with h0 | ⟨h1, _⟩
      · rw [← uniqueCount, ← hw, h0]
        omega
      · rw [← uniqueCount, ← hw, h1]
    omega
  · intro hmem
    have h1 : 1 ≤ c.live.countP holdsUnique := countP_pos_of_mem hmem rfl
    have hw1 : c.lock.writers = 1 := by
      rcases hd with h0 | ⟨hone, _⟩
      · rw [h0] at hw
        rw [← uniqueCount] at h1
        omega
      · exact hone
    simp only [acquire, lockMember, tryLockUnique]
    rw [if_neg]
    rintro ⟨hz, _⟩
    omega
  · intro hlive
    rw [hlive] at hw hr
    have hwv : c.lock.writers = 1 := hw
    have hrv : c.lock.readers = 0 := hr
    simp only [acquire, release, lockMember, unlockUnique, tryLockUnique, hwv, hrv]
    rfl

/-- C1 witness: after minting one exclusive pointer on a fresh cell, a second
exclusive acquisition blocks, and after the holder's destruction it is
grantable again. -/
theorem c1_exclusive_pointer_unique_witness :
    acquire ProxyKind.TAsyncSharedPointer (⟨1, 0⟩ : MutexState) = none ∧
    acquire ProxyKind.TAsyncSharedPointer
      (release ProxyKind.TAsyncSharedPointer (⟨1, 0⟩ : MutexState)) = some ⟨1, 0⟩ := by
  have hre : Reachable ⟨⟨1, 0⟩, [ProxyKind.TAsyncSharedPointer]⟩ :=
    Reachable.step Reachable.init
      (Step.mint ProxyKind.TAsyncSharedPointer ⟨MutexState.unlocked, []⟩ ⟨1, 0⟩ rfl)
  have h := c1_exclusive_pointer_unique hre
  exact ⟨h.2.1 (by simp), h.2.2 rfl⟩

/-- C2: the general-path const proxies (`TAsyncSharedConstPointer`,
`TAsyncSharedImmutableConstPointer`) both declare the exclusive
`unique_lock` member, so in any reachable configuration at most one
general-path proxy (const or not) is alive, and while a general-path proxy
is alive the construction of any other — including a second const reader —
blocks. -/
theorem c2_general_const_readers_exclusive {c : Config} (h : Reachable c) :
    lockMember ProxyKind.TAsyncSharedConstPointer = LockMember.uniqueLock ∧
    lockMember ProxyKind.TAsyncSharedImmutableConstPointer = LockMember.uniqueLock ∧
    c.live.countP isGeneralPathProxy ≤ 1 ∧
    (∀ k1 k2 : ProxyKind, isGeneralPathProxy k1 = true → isGeneralPathProxy k2 = true →
      k1 ∈ c.live → acquire k2 c.lock = none) := by
  obtain ⟨hw, hr, hd⟩ := reachable_inv h
  have hgen_unique : ∀ k, isGeneralPathProxy k = true → holdsUnique k = true := by
    intro k
    cases k <;> decide
  have hunique_member : ∀ k, holdsUnique k = true →
      lockMember k = LockMember.uniqueLock := by
    intro k
    cases k <;> decide
  refine ⟨rfl, rfl, ?_, ?_⟩
  · have hle : c.live.countP isGeneralPathProxy ≤ c.live.countP holdsUnique :=
      countP_implies_le _ _ _ hgen_unique
    have : c.live.countP holdsUnique ≤ 1 := by
      rcases hd with h0 | ⟨h1, _⟩
      · rw [← uniqueCount, ← hw, h0]
        omega
      · rw [← uniqueCount, ← hw, h1]
    omega
  · intro k1 k2 hk1 hk2 hmem
    have h1 : 1 ≤ c.live.countP holdsUnique :=
      countP_pos_of_mem hmem (hgen_unique k1 hk1)
    have hw1 : c.lock.writers = 1 := by
      rcases hd with h0 | ⟨hone, _⟩
      · rw [h0] at hw
        rw [← uniqueCount] at h1
        omega
      · exact hone
    have hm2 := hunique_member k2 (hgen_unique k2 hk2)
    simp only [acquire, hm2, tryLockUnique]
    rw [if_neg]
    rintro ⟨hz, _⟩
    omega

/-- C2 witness: with a `TAsyncSharedConstPointer` alive on the cell,
constructing a `TAsyncSharedImmutableConstPointer` (a second const reader on
the general path) blocks. -/
theorem c2_general_const_readers_exclusive_witness :
    acquire ProxyKind.TAsyncSharedImmutableConstPointer (⟨1, 0⟩ : MutexState) = none := by
  have hre : Reachable ⟨⟨1, 0⟩, [ProxyKind.TAsyncSharedConstPointer]⟩ :=
    Reachable.step Reachable.init
      (Step.mint ProxyKind.TAsyncSharedConstPointer ⟨MutexState.unlocked, []⟩ ⟨1, 0⟩ rfl)
  have h := c2_general_const_readers_exclusive hre
  exact h.2.2.2 ProxyKind.TAsyncSharedConstPointer
    ProxyKind.TAsyncSharedImmutableConstPointer rfl rfl (by simp)

/-- C3: the pure-path shared const proxy acquires only the shared (reader)
side of the mutex; any number of them coexist without blocking one another
(whenever no exclusive holder is alive, a further shared acquisition is
grantable and just increments the reader count), while each of them blocks
any exclusive (`unique_lock`) proxy and is blocked by one. -/
theorem c3_pure_shared_readers_concurrent {c : Config} (h : Reachable c) :
    (∀ s : MutexState,
      acquire ProxyKind.TAsyncSharedSimpleObjectYouAreSureHasNoMutableMembersConstPointer s
        = tryLockShared s) ∧
    ((∀ k ∈ c.live,
        k = ProxyKind.TAsyncSharedSimpleObjectYouAreSureHasNoMutableMembersConstPointer) →
      acquire ProxyKind.TAsyncSharedSimpleObjectYouAreSureHasNoMutableMembersConstPointer
        c.lock = some ⟨0, c.lock.readers + 1⟩) ∧
    (∀ k' : ProxyKind, lockMember k' = LockMember.uniqueLock →
      ProxyKind.TAsyncSharedSimpleObjectYouAreSureHasNoMutableMembersConstPointer ∈ c.live →
      acquire k' c.lock = none) ∧
    (∀ k' : ProxyKind, lockMember k' = LockMember.uniqueLock → k' ∈ c.live →
      acquire ProxyKind.TAsyncSharedSimpleObjectYouAreSureHasNoMutableMembersConstPointer
        c.lock = none) := by
  obtain ⟨hw, hr, hd⟩ := reachable_inv h
  refine ⟨fun s => rfl, ?_, ?_, ?_⟩
  · intro hall
    have hz : c.live.countP holdsUnique = 0 := by
      refine countP_zero_of_all ?_
      intro k hk
      rw [hall k hk]
      rfl
    have hw0 : c.lock.writers = 0 := by
      rw [hw]
      exact hz
    simp only [acquire, lockMember, tryLockShared, hw0]
    rfl
  · intro k' hk' hmem
    have h1 : 1 ≤ c.live.countP holdsShared := countP_pos_of_mem hmem rfl
    have hr1 : 1 ≤ c.lock.readers := by
      rw [hr]
      exact h1
    simp only [acquire, hk', tryLockUnique]
    rw [if_neg]
    rintro ⟨_, hz⟩
    omega
  · intro k' hk' hmem
    have hku : holdsUnique k' = true := by
      simp [holdsUnique, hk']
    have h1 : 1 ≤ c.live.countP holdsUnique := countP_pos_of_mem hmem hku
    have hw1 : 1 ≤ c.lock.writers := by
      rw [hw]
      exact h1
    simp only [acquire, lockMember, tryLockShared]
    rw [if_neg]
    intro hz
    omega

/-- C3 witness: with two pure-path shared const proxies alive (two readers),
a third one is still grantable without blocking, while an exclusive
(`unique_lock`) pure-path pointer blocks. -/
theorem c3_pure_shared_readers_concurrent_witness :
    acquire ProxyKind.TAsyncSharedSimpleObjectYouAreSureHasNoMutableMembersConstPointer
      (⟨0, 2⟩ : MutexState) = some ⟨0, 3⟩ ∧
    acquire ProxyKind.TAsyncSharedSimpleObjectYouAreSureHasNoMutableMembersPointer
      (⟨0, 2⟩ : MutexState) = none := by
  have h1 : Reachable ⟨⟨0, 1⟩,
      [ProxyKind.TAsyncSharedSimpleObjectYouAreSureHasNoMutableMembersConstPointer]⟩ :=
    Reachable.step Reachable.init (Step.mint _ ⟨MutexState.unlocked, []⟩ ⟨0, 1⟩ rfl)
  have hre : Reachable ⟨⟨0, 2⟩,
      [ProxyKind.TAsyncSharedSimpleObjectYouAreSureHasNoMutableMembersConstPointer,
       ProxyKind.TAsyncSharedSimpleObjectYouAreSureHasNoMutableMembersConstPointer]⟩ :=
    Reachable.step h1 (Step.mint _ ⟨⟨0, 1⟩,
      [ProxyKind.TAsyncSharedSimpleObjectYouAreSureHasNoMutableMembersConstPointer]⟩
      ⟨0, 2⟩ rfl)
  have h := c3_pure_shared_readers_concurrent hre
  refine ⟨h.2.1 (by decide), ?_⟩
  exact h.2.2.1 ProxyKind.TAsyncSharedSimpleObjectYouAreSureHasNoMutableMembersPointer
    rfl (by simp)

/-- C4: constructing and destroying a
`TAsyncSharedSimpleObjectYouAreSureHasNoMutableMembersImmutableConstPointer`
leaves the mutex state unchanged in every state (no lock taken in any mode),
so it never blocks regardless of the other proxies alive. -/
theorem c4_pure_immutable_no_lock (s : MutexState) :
    acquire
      ProxyKind.TAsyncSharedSimpleObjectYouAreSureHasNoMutableMembersImmutableConstPointer s
      = some s ∧
    release
      ProxyKind.TAsyncSharedSimpleObjectYouAreSureHasNoMutableMembersImmutableConstPointer s
      = s :=
  ⟨rfl, rfl⟩

/-- C4 witness: on the mutex state with one writer and five readers (or any
other), the lock-free immutable pure-path proxy's construction and
destruction change nothing. -/
theorem c4_pure_immutable_no_lock_witness :
    acquire
      ProxyKind.TAsyncSharedSimpleObjectYouAreSureHasNoMutableMembersImmutableConstPointer
      (⟨1, 5⟩ : MutexState) = some ⟨1, 5⟩ ∧
    release
      ProxyKind.TAsyncSharedSimpleObjectYouAreSureHasNoMutableMembersImmutableConstPointer
      (⟨1, 5⟩ : MutexState) = ⟨1, 5⟩ :=
  c4_pure_immutable_no_lock ⟨1, 5⟩

/-- The per-instance data every one of the six pointer-proxy classes holds:
`m_shptr` models the `std::shared_ptr` member (`none` is a null shared_ptr,
the state after move construction from this object), `m_lock_owned` models
whether the contained lock object (`m_unique_lock` / `m_shared_lock`, absent
for the lock-free proxy) currently owns the mutex. The payload the cell
holds is stored in place of the pointer target. -/
structure ProxyState (α : Type) where
  m_shptr : Option α
  m_lock_owned : Bool
deriving DecidableEq, Repr

/-- The `std::out_of_range` exception every proxy's dereference throws on an
invalid pointer ("attempt to use invalid pointer"). -/
inductive CppError
  | out_of_range
deriving DecidableEq, Repr

/-- `is_valid()` of each proxy class: `bool retval = m_shptr.operator bool()`
— the shared_ptr is non-null. -/
def ProxyState.is_valid {α : Type} (p : ProxyState α) : Bool :=
  p.m_shptr.isSome

/-- `operator*()` of each proxy class:
`if (!is_valid()) { throw(std::out_of_range(...)); } return (*m_shptr);`
(the guard `!is_valid()` is exactly the null test on `m_shptr`). -/
def ProxyState.opStar {α : Type} (p : ProxyState α) : Except CppError α :=
  match p.m_shptr with
  | some v => Except.ok v
  | none => Except.error CppError.out_of_range

/-- `operator->()` of each proxy class:
`if (!is_valid()) { throw(std::out_of_range(...)); } return std::addressof(*m_shptr);`. -/
def ProxyState.opArrow {α : Type} (p : ProxyState α) : Except CppError α :=
  match p.m_shptr with
  | some v => Except.ok v
  | none => Except.error CppError.out_of_range

/-- The defaulted move constructor every proxy class declares
(`TAsyncSharedPointer(TAsyncSharedPointer&& src) = default;` and likewise
for the other five classes): member-wise move, which leaves the source's
shared_ptr null and its lock object not owning, while the new object takes
over both. Returns (constructed object, moved-from source). -/
def ProxyState.moveConstruct {α : Type} (src : ProxyState α) :
    ProxyState α × ProxyState α :=
  (⟨src.m_shptr, src.m_lock_owned⟩, ⟨none, false⟩)

/-- The special member functions of a C++ class relevant to copying/moving. -/
inductive MemberFn
  | copyCtor
  | moveCtor
  | copyAssign
  | moveAssign
deriving DecidableEq, Repr

/-- Availability of each special member on the six pointer-proxy classes,
transcribed from their declarations: the move constructor is declared
`= default`; copy assignment and move assignment are declared `= delete`;
the copy constructor is implicitly deleted because a move constructor is
user-declared. All six proxy classes declare the same set. -/
def proxyMemberAvailable : MemberFn → Bool
  | .moveCtor => true
  | .copyCtor => false
  | .copyAssign => false
  | .moveAssign => false

/-- C5: on a valid proxy, `operator*` and `operator->` return the payload;
on a proxy invalidated by move construction they raise the
`std::out_of_range` invalid-access error synchronously, never returning
a stale value and never swallowing the error. -/
theorem c5_deref_valid_or_throws {α : Type} (p : ProxyState α) :
    (p.is_valid = true →
      ∃ v, p.m_shptr = some v ∧ p.opStar = Except.ok v ∧ p.opArrow = Except.ok v) ∧
    (p.moveConstruct.2.opStar = Except.error CppError.out_of_range ∧
     p.moveConstruct.2.opArrow = Except.error CppError.out_of_range) := by
  constructor
  · intro hv
    cases hp : p.m_shptr with
    | none => simp [ProxyState.is_valid, hp] at hv
    | some v => exact ⟨v, rfl, by simp [ProxyState.opStar, hp], by simp [ProxyState.opArrow, hp]⟩
  · exact ⟨rfl, rfl⟩

/-- C5 witness: on the valid proxy holding payload `42`, dereference returns
`42`; after move construction, dereferencing the source throws. -/
theorem c5_deref_valid_or_throws_witness :
    (∃ v, (⟨some 42, true⟩ : ProxyState Nat).m_shptr = some v ∧
      (⟨some 42, true⟩ : ProxyState Nat).opStar = Except.ok v ∧
      (⟨some 42, true⟩ : ProxyState Nat).opArrow = Except.ok v) ∧
    (⟨some 42, true⟩ : ProxyState Nat).moveConstruct.2.opStar
      = Except.error CppError.out_of_range := by
  have h := c5_deref_valid_or_throws (⟨some 42, true⟩ : ProxyState Nat)
  exact ⟨h.1 rfl, h.2.1⟩

/-- C6: every proxy class is move-only (copy construction, copy assignment
and move assignment unavailable, move construction available), and move
construction transfers the cell reference and the lock token to the
destination while invalidating the source, so the number of valid proxy
objects embodying the acquisition is preserved (at most one). -/
theorem c6_move_only_transfer {α : Type} (p : ProxyState α) :
    proxyMemberAvailable MemberFn.copyCtor = false ∧
    proxyMemberAvailable MemberFn.copyAssign = false ∧
    proxyMemberAvailable MemberFn.moveAssign = false ∧
    proxyMemberAvailable MemberFn.moveCtor = true ∧
    p.moveConstruct.1.m_shptr = p.m_shptr ∧
    p.moveConstruct.1.m_lock_owned = p.m_lock_owned ∧
    p.moveConstruct.2.is_valid = false ∧
    p.moveConstruct.2.opStar = Except.error CppError.out_of_range ∧
    (p.is_valid = true → p.moveConstruct.1.is_valid = true) ∧
    ((if p.moveConstruct.1.is_valid then 1 else 0)
       + (if p.moveConstruct.2.is_valid then 1 else 0)
       = if p.is_valid then 1 else 0) := by
  refine ⟨rfl, rfl, rfl, rfl, rfl, rfl, rfl, rfl, fun hv => hv, ?_⟩
  simp [ProxyState.moveConstruct, ProxyState.is_valid]

/-- C6 witness: moving from a valid proxy leaves the source invalid and the
destination valid and holding the lock. -/
theorem c6_move_only_transfer_witness :
    (⟨some 7, true⟩ : ProxyState Nat).moveConstruct.2.is_valid = false ∧
    (⟨some 7, true⟩ : ProxyState Nat).moveConstruct.1.is_valid = true ∧
    (⟨some 7, true⟩ : ProxyState Nat).moveConstruct.1.m_lock_owned = true := by
  have h := c6_move_only_transfer (⟨some 7, true⟩ : ProxyState Nat)
  obtain ⟨-, -, -, -, -, h6, h7, -, h9, -⟩ := h
  exact ⟨h7, h9 rfl, h6⟩

/-- The public member operations callable on a live proxy object (beyond
construction): the validity check `operator bool`, the two dereference
operators, and destruction. -/
inductive ProxyOp
  | opBoolCheck
  | opDeref
  | opArrowDeref
  | opDestruct
deriving DecidableEq, Repr

/-- Outcome values of the proxy operations. -/
inductive OpOutcome (α : Type)
  | boolResult (b : Bool)
  | refResult (v : α)
  | unitResult
deriving DecidableEq, Repr

/-- Whether an `Except` computation completed without throwing. -/
def exceptIsOk {ε β : Type} : Except ε β → Bool
  | Except.ok _ => true
  | Except.error _ => false

/-- Running one public operation on a proxy: `operator bool` returns
`m_shptr.operator bool()` (the throwing guard in the source is commented
out), `operator*`/`operator->` throw on an invalid proxy (see
`ProxyState.opStar`), and the destructor always completes (it only releases
the members). -/
def runOp {α : Type} (op : ProxyOp) (p : ProxyState α) :
    Except CppError (OpOutcome α) :=
  match op with
  | .opBoolCheck => Except.ok (OpOutcome.boolResult p.m_shptr.isSome)
  | .opDeref => (p.opStar).map OpOutcome.refResult
  | .opArrowDeref => (p.opArrow).map OpOutcome.refResult
  | .opDestruct => Except.ok OpOutcome.unitResult

/-- C9: `operator bool` on a proxy invalidated by move construction returns
`false` without raising any error, and returns `true` on a valid proxy;
among the public operations, the validity check and destruction are exactly
the ones that complete without error on an invalid proxy. -/
theorem c9_bool_check_safe {α : Type} (p : ProxyState α) :
    (p.is_valid = false →
      runOp ProxyOp.opBoolCheck p = Except.ok (OpOutcome.boolResult false)) ∧
    (p.is_valid = true →
      runOp ProxyOp.opBoolCheck p = Except.ok (OpOutcome.boolResult true)) ∧
    (p.is_valid = false → ∀ op : ProxyOp,
      exceptIsOk (runOp op p) = true ↔ (op = ProxyOp.opBoolCheck ∨ op = ProxyOp.opDestruct)) := by
  refine ⟨?_, ?_, ?_⟩
  · intro hv
    simp only [runOp, ProxyState.is_valid] at hv ⊢
    rw [hv]
  · intro hv
    simp only [runOp, ProxyState.is_valid] at hv ⊢
    rw [hv]
  · intro hv op
    have hp : p.m_shptr = none := by
      cases hp : p.m_shptr with
      | none => rfl
      | some v => simp [ProxyState.is_valid, hp] at hv
    cases op <;>
      simp [runOp, ProxyState.opStar, ProxyState.opArrow, hp, exceptIsOk, Except.map]

/-- C9 witness: on the moved-from proxy, the validity check returns `false`
with no error; dereference does not complete, destruction does. -/
theorem c9_bool_check_safe_witness :
    runOp ProxyOp.opBoolCheck (⟨none, false⟩ : ProxyState Nat)
      = Except.ok (OpOutcome.boolResult false) ∧
    (exceptIsOk (runOp ProxyOp.opDeref (⟨none, false⟩ : ProxyState Nat)) = true
      ↔ (ProxyOp.opDeref = ProxyOp.opBoolCheck ∨ ProxyOp.opDeref = ProxyOp.opDestruct)) ∧
    (exceptIsOk (runOp ProxyOp.opDestruct (⟨none, false⟩ : ProxyState Nat)) = true
      ↔ (ProxyOp.opDestruct = ProxyOp.opBoolCheck ∨ ProxyOp.opDestruct = ProxyOp.opDestruct)) := by
  have h := c9_bool_check_safe (⟨none, false⟩ : ProxyState Nat)
  exact ⟨h.1 rfl, h.2.2 rfl ProxyOp.opDeref, h.2.2 rfl ProxyOp.opDestruct⟩

/-- The four access-requester classes of mseasyncshared.h, each produced by
its factory (`make_asyncshared`, `make_asyncsharedimmutable`,
`make_asyncsharedsimpleobjectyouaresurehasnomutablemembers`,
`make_asyncsharedsimpleobjectyouaresurehasnomutablemembersimmutable`). -/
inductive RequesterKind
  | TAsyncSharedAccessRequester
  | TAsyncSharedImmutableAccessRequester
  | TAsyncSharedSimpleObjectYouAreSureHasNoMutableMembersAccessRequester
  | TAsyncSharedSimpleObjectYouAreSureHasNoMutableMembersImmutableAccessRequester
deriving DecidableEq, Repr

/-- The proxy-minting methods each requester class declares, transcribed
from the source: `TAsyncSharedAccessRequester` has `ptr()` and
`const_ptr()` (lines 159-164); `TAsyncSharedImmutableAccessRequester` has
only `const_ptr()` (lines 232-234); the pure-path mutable requester has
`ptr()` and `const_ptr()` (lines 342-347); the pure-path immutable
requester has only `const_ptr()` (lines 415-417). -/
def mintable : RequesterKind → ProxyKind → Bool
  | .TAsyncSharedAccessRequester, .TAsyncSharedPointer => true
  | .TAsyncSharedAccessRequester, .TAsyncSharedConstPointer => true
  | .TAsyncSharedImmutableAccessRequester, .TAsyncSharedImmutableConstPointer => true
  | .TAsyncSharedSimpleObjectYouAreSureHasNoMutableMembersAccessRequester,
      .TAsyncSharedSimpleObjectYouAreSureHasNoMutableMembersPointer => true
  | .TAsyncSharedSimpleObjectYouAreSureHasNoMutableMembersAccessRequester,
      .TAsyncSharedSimpleObjectYouAreSureHasNoMutableMembersConstPointer => true
  | .TAsyncSharedSimpleObjectYouAreSureHasNoMutableMembersImmutableAccessRequester,
      .TAsyncSharedSimpleObjectYouAreSureHasNoMutableMembersImmutableConstPointer => true
  | _, _ => false

/-- Whether dereferencing a proxy yields non-const access to the payload:
only the two `ptr()`-minted pointer classes return a non-const
`TAsyncSharedObj<_Ty>&`; the four const pointer classes return
`const _Ty&`. -/
def grantsMutableAccess : ProxyKind → Bool
  | .TAsyncSharedPointer => true
  | .TAsyncSharedSimpleObjectYouAreSureHasNoMutableMembersPointer => true
  | _ => false

/-- The requesters that can ever reference a cell created by the factory of
origin kind `o`: the factory's own requester, and anything obtained from an
existing one by the copy constructor (the only other public constructor of
every requester class), which preserves the class. -/
inductive RequesterFor : RequesterKind → RequesterKind → Prop
  | factory (o : RequesterKind) : RequesterFor o o
  | copy {o r : RequesterKind} : RequesterFor o r → RequesterFor o r

/-- C7: any requester reachable for a cell created through
`make_asyncsharedimmutable` is the immutable requester, whose only minting
method is `const_ptr()`; hence every proxy ever minted on such a cell is a
`TAsyncSharedImmutableConstPointer`, and no API path produces an
exclusive/mutable-access proxy for it. -/
theorem c7_immutable_requester_const_only (r : RequesterKind) (k : ProxyKind)
    (hr : RequesterFor RequesterKind.TAsyncSharedImmutableAccessRequester r)
    (hk : mintable r k = true) :
    k = ProxyKind.TAsyncSharedImmutableConstPointer ∧ grantsMutableAccess k = false := by
  revert hk
  induction hr with
  | factory =>
    intro hk
    cases k <;> first
      | exact ⟨rfl, rfl⟩
      | exact absurd hk (by decide)
  | copy hr ih =>
    exact ih

/-- C7 witness: the immutable requester itself mints exactly the immutable
const pointer, which grants no mutable access. -/
theorem c7_immutable_requester_const_only_witness :
    ProxyKind.TAsyncSharedImmutableConstPointer
      = ProxyKind.TAsyncSharedImmutableConstPointer ∧
    grantsMutableAccess ProxyKind.TAsyncSharedImmutableConstPointer = false :=
  c7_immutable_requester_const_only RequesterKind.TAsyncSharedImmutableAccessRequester
    ProxyKind.TAsyncSharedImmutableConstPointer
    (RequesterFor.factory RequesterKind.TAsyncSharedImmutableAccessRequester) rfl

/-- Ownership state of one `TAsyncSharedObj` cell under the `std::shared_ptr`
members `m_shptr` that every requester and every (valid) proxy holds:
`requesters`/`proxies` count the live owners of each sort, `freeCount` the
number of times the cell's destructor has run. -/
structure CellLife where
  requesters : Nat
  proxies : Nat
  freeCount : Nat
deriving DecidableEq, Repr

/-- Effect of one `shared_ptr` owner going away, after which `req` requester
owners and `prox` proxy owners remain: when the released reference was the
last one, the cell is destroyed (its destructor runs once, here
`free + 1`); otherwise the cell stays alive. -/
def afterRelease (req prox free : Nat) : CellLife :=
  if req + prox = 0 then ⟨req, prox, free + 1⟩ else ⟨req, prox, free⟩

/-- The ownership events of a cell's lifetime: copying a requester (its copy
constructor copies `m_shptr`), minting a proxy from a live requester (the
proxy constructor copies `m_shptr`), and destroying a requester or a proxy
(the `shared_ptr` member releases its reference). -/
inductive OwnStep : CellLife → CellLife → Prop
  | copyRequester (c : CellLife) : 1 ≤ c.requesters →
      OwnStep c ⟨c.requesters + 1, c.proxies, c.freeCount⟩
  | mintProxy (c : CellLife) : 1 ≤ c.requesters →
      OwnStep c ⟨c.requesters, c.proxies + 1, c.freeCount⟩
  | destroyRequester (c : CellLife) : 1 ≤ c.requesters →
      OwnStep c (afterRelease (c.requesters - 1) c.proxies c.freeCount)
  | destroyProxy (c : CellLife) : 1 ≤ c.proxies →
      OwnStep c (afterRelease c.requesters (c.proxies - 1) c.freeCount)

/-- Ownership states reachable from the factory call, which allocates the
cell and wraps it in one requester (`use_count` 1, cell alive). -/
inductive OwnReach : CellLife → Prop
  | create : OwnReach ⟨1, 0, 0⟩
  | step {c c' : CellLife} : OwnReach c → OwnStep c c' → OwnReach c'

/-- The one-step preservation of the ownership invariant. -/
theorem ownStep_inv {c c' : CellLife}
    (ih : (1 ≤ c.requesters + c.proxies ∧ c.freeCount = 0) ∨
      (c.requesters = 0 ∧ c.proxies = 0 ∧ c.freeCount = 1))
    (hs : OwnStep c c') :
    (1 ≤ c'.requesters + c'.proxies ∧ c'.freeCount = 0) ∨
    (c'.requesters = 0 ∧ c'.proxies = 0 ∧ c'.freeCount = 1) := by
  cases hs with
  | copyRequester hc =>
    rcases ih with ⟨h1, h2⟩ | ⟨h1, h2, h3⟩
    · refine Or.inl ⟨?_, ?_⟩
      · show 1 ≤ c.requesters + 1 + c.proxies
        omega
      · exact h2
    · omega
  | mintProxy hc =>
    rcases ih with ⟨h1, h2⟩ | ⟨h1, h2, h3⟩
    · refine Or.inl ⟨?_, ?_⟩
      · show 1 ≤ c.requesters + (c.proxies + 1)
        omega
      · exact h2
    · omega
  | destroyRequester hc =>
    rcases ih with ⟨h1, h2⟩ | ⟨h1, h2, h3⟩
    · unfold afterRelease
      split
      · rename_i hz
        refine Or.inr ⟨?_, ?_, ?_⟩
        · show c.requesters - 1 = 0
          omega
        · show c.proxies = 0
          omega
        · show c.freeCount + 1 = 1
          omega
      · rename_i hz
        refine Or.inl ⟨?_, ?_⟩
        · show 1 ≤ c.requesters - 1 + c.proxies
          omega
        · exact h2
    · omega
  | destroyProxy hc =>
    rcases ih with ⟨h1, h2⟩ | ⟨h1, h2, h3⟩
    · unfold afterRelease
      split
      · rename_i hz
        refine Or.inr ⟨?_, ?_, ?_⟩
        · show c.requesters = 0
          omega
        · show c.proxies - 1 = 0
          omega
        · show c.freeCount + 1 = 1
          omega
      · rename_i hz
        refine Or.inl ⟨?_, ?_⟩
        · show 1 ≤ c.requesters + (c.proxies - 1)
          omega
        · exact h2
    · omega

theorem ownReach_inv {c : CellLife} (h : OwnReach c) :
    (1 ≤ c.requesters + c.proxies ∧ c.freeCount = 0) ∨
    (c.requesters = 0 ∧ c.proxies = 0 ∧ c.freeCount = 1) := by
  induction h with
  | create => exact Or.inl ⟨by decide, rfl⟩
  | step hre hs ih => exact ownStep_inv ih hs

/-- C8: the cell is never destroyed while a requester or a proxy still owns
a reference to it, its destructor runs at most once, and once every
requester and every proxy has been destroyed — in whatever order the steps
were taken — it has run exactly once. -/
theorem c8_cell_freed_exactly_once {c : CellLife} (h : OwnReach c) :
    (1 ≤ c.requesters + c.proxies → c.freeCount = 0) ∧
    c.freeCount ≤ 1 ∧
    (c.requesters = 0 → c.proxies = 0 → c.freeCount = 1) := by
  rcases ownReach_inv h with ⟨h1, h2⟩ | ⟨h1, h2, h3⟩
  · exact ⟨fun _ => h2, by omega, fun hz1 hz2 => by omega⟩
  · exact ⟨fun hge => by omega, by omega, fun _ _ => h3⟩

/-- C8 witness: create a requester, copy it, mint a proxy, then destroy the
three owners in an interleaved order; while owners remain the cell is
alive, and after the last destruction it has been freed exactly once. -/
theorem c8_cell_freed_exactly_once_witness :
    (⟨1, 1, 0⟩ : CellLife).freeCount = 0 ∧
    (⟨0, 0, 1⟩ : CellLife).freeCount = 1 := by
  have s1 : OwnReach ⟨1, 0, 0⟩ := OwnReach.create
  have s2 : OwnReach ⟨2, 0, 0⟩ :=
    OwnReach.step s1 (OwnStep.copyRequester ⟨1, 0, 0⟩ (by decide))
  have s3 : OwnReach ⟨2, 1, 0⟩ :=
    OwnReach.step s2 (OwnStep.mintProxy ⟨2, 0, 0⟩ (by decide))
  have s4 : OwnReach ⟨1, 1, 0⟩ :=
    OwnReach.step s3 (OwnStep.destroyRequester ⟨2, 1, 0⟩ (by decide))
  have s5 : OwnReach ⟨1, 0, 0⟩ :=
    OwnReach.step s4 (OwnStep.destroyProxy ⟨1, 1, 0⟩ (by decide))
  have s6 : OwnReach ⟨0, 0, 1⟩ :=
    OwnReach.step s5 (OwnStep.destroyRequester ⟨1, 0, 0⟩ (by decide))
  have h4 := c8_cell_freed_exactly_once s4
  have h6 := c8_cell_freed_exactly_once s6
  exact ⟨h4.1 (by decide), h6.2.2 rfl rfl⟩

/-- The reference-counting node of mserefcounted.h: a `CRefCounter` (whose
`m_counter` starts at 1) together with the target object. -/
structure TRefWithTargetObj (X : Type) where
  m_counter : Nat
  m_object : X
deriving DecidableEq, Repr

/-- `TRefCountedPointer<X>`: its single data member
`TRefWithTargetObj<X>* m_ref_with_target_obj_ptr` (`none` models the null
pointer). -/
structure TRefCountedPointer (X : Type) where
  m_ref_with_target_obj_ptr : Option (TRefWithTargetObj X)
deriving DecidableEq, Repr

/-- `TRefCountedPointer() : m_ref_with_target_obj_ptr(nullptr) {}`. -/
def TRefCountedPointer.defaultConstructed (X : Type) : TRefCountedPointer X :=
  ⟨none⟩

/-- `TRefCountedPointer(nullptr_t) : m_ref_with_target_obj_ptr(nullptr) {}`. -/
def TRefCountedPointer.fromNullptr (X : Type) : TRefCountedPointer X :=
  ⟨none⟩

/-- `operator=(const TRefCountedPointer& r)`: release the old target
(refcount side effect on the old node, not tracked here) and acquire `r`'s
node — the member ends up equal to `r.m_ref_with_target_obj_ptr`. -/
def TRefCountedPointer.assign {X : Type} (p r : TRefCountedPointer X) :
    TRefCountedPointer X :=
  ⟨r.m_ref_with_target_obj_ptr⟩

/-- `void clear() { (*this) = TRefCountedPointer<X>(nullptr); }`. -/
def TRefCountedPointer.clear {X : Type} (p : TRefCountedPointer X) :
    TRefCountedPointer X :=
  p.assign (TRefCountedPointer.fromNullptr X)

/-- `X& operator*() const`: throws `std::out_of_range` ("attempt to
dereference null pointer") when the member is null, else returns
`m_ref_with_target_obj_ptr->m_object`. -/
def TRefCountedPointer.opStar {X : Type} (p : TRefCountedPointer X) :
    Except CppError X :=
  match p.m_ref_with_target_obj_ptr with
  | none => Except.error CppError.out_of_range
  | some node => Except.ok node.m_object

/-- `X* operator->() const`: same null check, returns
`&(m_ref_with_target_obj_ptr->m_object)`. -/
def TRefCountedPointer.opArrow {X : Type} (p : TRefCountedPointer X) :
    Except CppError X :=
  match p.m_ref_with_target_obj_ptr with
  | none => Except.error CppError.out_of_range
  | some node => Except.ok node.m_object

/-- `X* get() const`: returns the target address or `nullptr`, never
throwing. -/
def TRefCountedPointer.get {X : Type} (p : TRefCountedPointer X) : Option X :=
  match p.m_ref_with_target_obj_ptr with
  | none => none
  | some node => some node.m_object

/-- C10: on every null `TRefCountedPointer` — default-constructed,
constructed from `nullptr`, cleared, or assigned a null pointer —
`operator*` and `operator->` throw `std::out_of_range`, while `get()`
returns null without throwing. -/
theorem c10_null_refcounted_deref_throws (X : Type) (q : TRefCountedPointer X) :
    ((TRefCountedPointer.defaultConstructed X).opStar
        = Except.error CppError.out_of_range ∧
      (TRefCountedPointer.defaultConstructed X).opArrow
        = Except.error CppError.out_of_range ∧
      (TRefCountedPointer.defaultConstructed X).get = none) ∧
    ((TRefCountedPointer.fromNullptr X).opStar = Except.error CppError.out_of_range ∧
      (TRefCountedPointer.fromNullptr X).opArrow = Except.error CppError.out_of_range ∧
      (TRefCountedPointer.fromNullptr X).get = none) ∧
    (q.clear.opStar = Except.error CppError.out_of_range ∧
      q.clear.opArrow = Except.error CppError.out_of_range ∧
      q.clear.get = none) ∧
    ((q.assign (TRefCountedPointer.fromNullptr X)).opStar
        = Except.error CppError.out_of_range ∧
      (q.assign (TRefCountedPointer.fromNullptr X)).opArrow
        = Except.error CppError.out_of_range ∧
      (q.assign (TRefCountedPointer.fromNullptr X)).get = none) :=
  ⟨⟨rfl, rfl, rfl⟩, ⟨rfl, rfl, rfl⟩, ⟨rfl, rfl, rfl⟩, ⟨rfl, rfl, rfl⟩⟩

/-- C10 witness: clearing a pointer that did hold a target leaves a null
pointer whose dereference throws and whose `get()` is null. -/
theorem c10_null_refcounted_deref_throws_witness :
    (TRefCountedPointer.clear (⟨some ⟨1, 9⟩⟩ : TRefCountedPointer Nat)).opStar
      = Except.error CppError.out_of_range ∧
    (TRefCountedPointer.clear (⟨some ⟨1, 9⟩⟩ : TRefCountedPointer Nat)).get = none := by
  have h := c10_null_refcounted_deref_throws Nat ⟨some ⟨1, 9⟩⟩
  exact ⟨h.2.2.1.1, h.2.2.1.2.2⟩

end Mse
